import Mathlib

/-!
Verification development for the `z_lib` virtual-filesystem core
(`path_resolver.py`, `backend/zipfile_backend.py`, `namespaces/z_os.py`).

The Python source is shallowly embedded: strings of path text stay strings,
Python dictionaries of loaded ZIP handles become association lists,
filesystem and codec side effects become explicit function parameters, and
exceptions become `Except`/`Option` results.  Every definition follows the
corresponding Python function line by line; comments cite the source file.
-/

set_option maxHeartbeats 1000000
set_option maxRecDepth 100000

namespace ZLib

/-- A loaded-archive handle, mirroring `ZipHandle` (`_types.py` usage in the
source): the resolved archive path, its private extraction directory, and
the open mode string (`"rw"` for read-write). -/
structure ZipHandle where
  path : String
  temp_dir : String
  mode : String
deriving DecidableEq

/-- `path_resolver.normalize_path`: replace backslash separators with
forward slashes.  The pattern is a single character, so Python's
`str.replace` is a per-character substitution. -/
def normalize_path (path : String) : String :=
  ⟨path.data.map (fun c => if c = '\\' then '/' else c)⟩

/-- Python `str.split("/")` on the character list: `""` splits to `[""]`,
and each separator starts a fresh (possibly empty) segment. -/
def splitSlash : List Char → List (List Char)
  | [] => [[]]
  | c :: rest =>
    match splitSlash rest with
    | [] => [[c]]
    | g :: gs => if c = '/' then [] :: g :: gs else (c :: g) :: gs

/-- The component list `parts = norm_path.split("/")` used by
`split_zip_path` and `find_longest_match_handle`. -/
def pathParts (path : String) : List String :=
  (splitSlash (normalize_path path).data).map (fun l => ⟨l⟩)

/-- Python `str.endswith`, by comparing the trailing characters. -/
def strEndsWith (s suff : String) : Bool :=
  suff.data == s.data.drop (s.data.length - suff.data.length)

/-- Python `str.startswith`, by comparing the leading characters. -/
def strStartsWith (s pre : String) : Bool :=
  pre.data == s.data.take pre.data.length

/-- Python `str.lower`, character by character. -/
def lowerStr (s : String) : String :=
  ⟨s.data.map Char.toLower⟩

/-- Loop body of `path_resolver.split_zip_path`: walk the components left to
right, accumulating `current_path_parts`; on the first component whose
lower-cased form ends in `".zip"`, return the joined accumulated parts as
the ZIP path and the joined remainder as the internal path. -/
def splitZipGo : List String → List String → Option (String × String)
  | [], _ => none
  | part :: rest, acc =>
    let acc' := acc ++ [part]
    if strEndsWith (lowerStr part) ".zip" then
      some (String.intercalate "/" acc', String.intercalate "/" rest)
    else
      splitZipGo rest acc'

/-- `path_resolver.split_zip_path`: split a path into the ZIP file path and
the internal path; `(none, path)` when no component ends in `.zip`. -/
def split_zip_path (path : String) : Option String × String :=
  match splitZipGo (pathParts path) [] with
  | some (zipPath, internal) => (some zipPath, internal)
  | none => (none, path)

/-- First loop of `find_longest_match_handle`
(`for i in range(len(parts), 0, -1)`): plain string longest-prefix match of
the joined leading components against the registry keys.  The `Nat`
argument is the loop counter `i`, counting down; `loaded.lookup` models the
Python dict membership test and access. -/
def matchPass1 (loaded : List (String × ZipHandle)) (parts : List String) :
    Nat → Option (ZipHandle × String)
  | 0 => none
  | i + 1 =>
    let potential := String.intercalate "/" (parts.take (i + 1))
    match loaded.lookup potential with
    | some handle => some (handle, String.intercalate "/" (parts.drop (i + 1)))
    | none => matchPass1 loaded parts i

/-- Second loop of `find_longest_match_handle`: resolve each candidate to
its absolute physical path (`Path(...).resolve()`, modelled by the
parameter `resolveAbs`, `none` standing for a raised exception, which the
`except` clause turns into `continue`), normalize it, and match that
against the registry keys. -/
def matchPass2 (resolveAbs : String → Option String)
    (loaded : List (String × ZipHandle)) (parts : List String) :
    Nat → Option (ZipHandle × String)
  | 0 => none
  | i + 1 =>
    let potential := String.intercalate "/" (parts.take (i + 1))
    match resolveAbs potential with
    | none => matchPass2 resolveAbs loaded parts i
    | some abs0 =>
      match loaded.lookup (normalize_path abs0) with
      | some handle => some (handle, String.intercalate "/" (parts.drop (i + 1)))
      | none => matchPass2 resolveAbs loaded parts i

/-- `path_resolver.find_longest_match_handle`: try the plain string pass,
then the physically-resolved pass, each from the longest candidate to the
shortest; `(none, path)` when neither matches. -/
def find_longest_match_handle (resolveAbs : String → Option String)
    (path : String) (loaded : List (String × ZipHandle)) :
    Option ZipHandle × String :=
  let parts := pathParts path
  match matchPass1 loaded parts parts.length with
  | some (handle, internal) => (some handle, internal)
  | none =>
    match matchPass2 resolveAbs loaded parts parts.length with
    | some (handle, internal) => (some handle, internal)
    | none => (none, path)

/-- `Path(base) / rel` for the string model: joining the empty internal
path leaves the base unchanged, as `pathlib` does. -/
def joinPath (base rel : String) : String :=
  if rel = "" then base else base ++ "/" ++ rel

/-- Failures of `resolve_to_real_path`: `ZipNotLoadedError` carries the
archive-shaped prefix it names (a distinct error kind), and `osError`
stands for an `OSError` escaping the final `Path(path).resolve()`. -/
inductive ResolveError
  | zipNotLoaded (zipPath : String)
  | osError
deriving DecidableEq

/-- `path_resolver.resolve_to_real_path`: longest-match against the
registry; on a match join the handle's `temp_dir` with the internal path;
otherwise raise `ZipNotLoadedError` naming the archive-shaped prefix when
`split_zip_path` finds one, else return `Path(path).resolve()`. -/
def resolve_to_real_path (resolveAbs : String → Option String)
    (path : String) (loaded : List (String × ZipHandle)) :
    Except ResolveError String :=
  match find_longest_match_handle resolveAbs path loaded with
  | (some handle, internal_path) => .ok (joinPath handle.temp_dir internal_path)
  | (none, _) =>
    match (split_zip_path path).1 with
    | some potential_zip => .error (.zipNotLoaded potential_zip)
    | none =>
      match resolveAbs path with
      | some a => .ok a
      | none => .error .osError

/-! ### `backend/zipfile_backend.py`: filename decoding

The CP437 codec used by `str.encode("cp437")` / the reader's implicit
`bytes.decode("cp437")` is a fixed 256-entry single-byte code page; it is
embedded in full below.  The CP932 codec is multi-megabyte table data
living in the Python runtime, so `bytes.decode("cp932")` is a parameter
(`List Nat → Option String`, `none` = `UnicodeDecodeError`); every theorem
about the decoding rule quantifies over it. -/

/-- Unicode code points of CP437 bytes `0x80`–`0xFF` (bytes below `0x80`
decode to themselves). -/
def cp437HighTable : List Nat :=
  [0x00C7, 0x00FC, 0x00E9, 0x00E2, 0x00E4, 0x00E0, 0x00E5, 0x00E7,
   0x00EA, 0x00EB, 0x00E8, 0x00EF, 0x00EE, 0x00EC, 0x00C4, 0x00C5,
   0x00C9, 0x00E6, 0x00C6, 0x00F4, 0x00F6, 0x00F2, 0x00FB, 0x00F9,
   0x00FF, 0x00D6, 0x00DC, 0x00A2, 0x00A3, 0x00A5, 0x20A7, 0x0192,
   0x00E1, 0x00ED, 0x00F3, 0x00FA, 0x00F1, 0x00D1, 0x00AA, 0x00BA,
   0x00BF, 0x2310, 0x00AC, 0x00BD, 0x00BC, 0x00A1, 0x00AB, 0x00BB,
   0x2591, 0x2592, 0x2593, 0x2502, 0x2524, 0x2561, 0x2562, 0x2556,
   0x2555, 0x2563, 0x2551, 0x2557, 0x255D, 0x255C, 0x255B, 0x2510,
   0x2514, 0x2534, 0x252C, 0x251C, 0x2500, 0x253C, 0x255E, 0x255F,
   0x255A, 0x2554, 0x2569, 0x2566, 0x2560, 0x2550, 0x256C, 0x2567,
   0x2568, 0x2564, 0x2565, 0x2559, 0x2558, 0x2552, 0x2553, 0x256B,
   0x256A, 0x2518, 0x250C, 0x2588, 0x2584, 0x258C, 0x2590, 0x2580,
   0x03B1, 0x00DF, 0x0393, 0x03C0, 0x03A3, 0x03C3, 0x00B5, 0x03C4,
   0x03A6, 0x0398, 0x03A9, 0x03B4, 0x221E, 0x03C6, 0x03B5, 0x2229,
   0x2261, 0x00B1, 0x2265, 0x2264, 0x2320, 0x2321, 0x00F7, 0x2248,
   0x00B0, 0x2219, 0x00B7, 0x221A, 0x207F, 0x00B2, 0x25A0, 0x00A0]

/-- CP437 decoding of one byte to its Unicode code point. -/
def cp437DecodeByte (b : Nat) : Nat :=
  if b < 128 then b else cp437HighTable.getD (b - 128) 0

/-- `bytes.decode("cp437")`: total on bytes, one character per byte. -/
def cp437Decode (raw : List Nat) : String :=
  ⟨raw.map (fun b => Char.ofNat (cp437DecodeByte b))⟩

/-- CP437 encoding of one Unicode code point back to a byte
(`none` = `UnicodeEncodeError`). -/
def cp437EncodeChar (c : Nat) : Option Nat :=
  if c < 128 then some c
  else (cp437HighTable.findIdx? (fun x => x = c)).map (fun i => i + 128)

/-- `str.encode("cp437")` over the character list: encode left to right,
failing on the first unencodable character, as Python's codecs do. -/
def cp437EncodeList : List Char → Option (List Nat)
  | [] => some []
  | c :: cs =>
    match cp437EncodeChar c.toNat with
    | none => none
    | some b =>
      match cp437EncodeList cs with
      | none => none
      | some bs => some (b :: bs)

/-- `str.encode("cp437")`. -/
def cp437Encode (s : String) : Option (List Nat) :=
  cp437EncodeList s.data

/-- The UTF-8 general-purpose bit flag, `_FLAG_UTF8 = 0x800` in
`zipfile_backend.py`. -/
def FLAG_UTF8 : Nat := 0x800

/-- `zipfile_backend._decode_zip_filename`: if the entry's UTF-8 flag bit
is set, return the name as `zipfile` decoded it; otherwise re-encode the
CP437-decoded name to bytes and redecode as CP932, falling back to the
original string when that fails.  The CP437 re-encode sits outside the
`try` block in the source, so its (practically unreachable) failure
propagates as an error. -/
def decode_zip_filename (cp932decode : List Nat → Option String)
    (flag_bits : Nat) (filename : String) : Except Unit String :=
  if flag_bits &&& FLAG_UTF8 ≠ 0 then
    .ok filename
  else
    match cp437Encode filename with
    | none => .error ()
    | some raw_bytes =>
      match cp932decode raw_bytes with
      | some s => .ok s
      | none => .ok filename

/-! ### `backend/zipfile_backend.py`: extraction and rewrite

The working directory is modelled as a `FileTree`: the list of directories
created so far (as component lists, parents always present) and the list
of files (component path, content bytes).  Directory creation with
`parents=True, exist_ok=True` adds every missing leading segment; writing a
file overwrites an existing file of the same path. -/

/-- The extracted working-directory contents:  relative directory paths
and relative file paths with their payload bytes. -/
structure FileTree where
  dirs : List (List String)
  files : List (List String × List Nat)
deriving DecidableEq

/-- `pathlib` components of a relative name: split on `/`, dropping empty
segments (so `"B/"` has components `["B"]`, as `Path("B/")` does). -/
def pathComps (s : String) : List String :=
  ((splitSlash s.data).map (fun l => (⟨l⟩ : String))).filter (fun c => c ≠ "")

/-- `Path.mkdir(parents=True, exist_ok=True)`: add every nonempty leading
segment of `d` that is not already present, shortest first. -/
def addDirClosure (dirs : List (List String)) (d : List String) :
    List (List String) :=
  (List.range d.length).foldl
    (fun acc k =>
      let pre := d.take (k + 1)
      if acc.contains pre then acc else acc ++ [pre])
    dirs

/-- Writing file contents to a path (`open(dest_path, "wb")` plus
`copyfileobj`): overwrite if present, else append. -/
def putFile (files : List (List String × List Nat)) (p : List String)
    (c : List Nat) : List (List String × List Nat) :=
  if files.any (fun f => f.1 = p) then
    files.map (fun f => if f.1 = p then (p, c) else f)
  else
    files ++ [(p, c)]

/-- One iteration of `_extract_with_encoding`'s loop, after the name has
been decoded: a name ending in `/` creates a directory; otherwise the
parent directories are created and the payload written. -/
def extractEntry (t : FileTree) (correct_name : String) (content : List Nat) :
    FileTree :=
  if strEndsWith correct_name "/" then
    { t with dirs := addDirClosure t.dirs (pathComps correct_name) }
  else
    let comps := pathComps correct_name
    { dirs := addDirClosure t.dirs comps.dropLast,
      files := putFile t.files comps content }

/-- The `for info in zf.infolist()` loop of `_extract_with_encoding`:
decode each entry name, place the entry, stop on a decoding error. -/
def extractLoop (cp932decode : List Nat → Option String) :
    FileTree → List (Nat × String × List Nat) → Except Unit FileTree
  | t, [] => .ok t
  | t, e :: rest =>
    match decode_zip_filename cp932decode e.1 e.2.1 with
    | .ok correct_name =>
      extractLoop cp932decode (extractEntry t correct_name e.2.2) rest
    | .error u => .error u

/-- `zipfile_backend._extract_with_encoding` over the archive's entry list
`(flag_bits, stored name as zipfile decoded it, payload bytes)`, starting
from the fresh empty working directory. -/
def extract_with_encoding (cp932decode : List Nat → Option String)
    (entries : List (Nat × String × List Nat)) : Except Unit FileTree :=
  extractLoop cp932decode ⟨[], []⟩ entries

/-- Files whose parent directory is exactly `root`: the `files` component
of one `os.walk` tuple over the working tree, paired with their contents. -/
def filesDirectlyIn (t : FileTree) (root : List String) :
    List (String × List Nat) :=
  t.files.filterMap
    (fun f =>
      if !f.1.isEmpty && f.1.dropLast == root then
        some (f.1.getLastD "", f.2)
      else none)

/-- The `os.walk(temp_dir)` tuples of the working tree, one per directory
(the root `[]` first, then every created directory in listing order); only
the per-directory file lists are consumed by `close`. -/
def walkTuples (t : FileTree) : List (List String × List (String × List Nat)) :=
  ([] :: t.dirs).map (fun r => (r, filesDirectlyIn t r))

/-- The rewrite loop of `ZipFileBackend.close`
(`for root, _dirs, files in os.walk(temp_dir): for file in files:`): every
file beneath the working directory, with its path relative to the working
directory (`file_path.relative_to(temp_dir)`) as the entry name. -/
def rewriteEntries (t : FileTree) : List (List String × List Nat) :=
  (walkTuples t).flatMap
    (fun rf => rf.2.map (fun nc => (rf.1 ++ [nc.1], nc.2)))

/-- The archive written on a successful save: the rewrite entries with
their component paths joined back to slash-separated entry names
(`zf.write(file_path, arcname)`); deflate compression preserves the
payload bytes, so entries carry the payloads themselves. -/
def rewriteArchive (t : FileTree) : List (String × List Nat) :=
  (rewriteEntries t).map (fun e => (String.intercalate "/" e.1, e.2))

/-! ### `ZipFileBackend.close` control flow

Modelled state: the archive file at the handle's original path (an entry
list, `none` when absent), whether the `.tmp_zip` temporary file currently
exists, and the working directory tree (`none` when already deleted).  The
two failure sources that the claims are about are made explicit:
`buildOk = false` means an exception is raised inside the inner `try`
while building the temporary archive (ZipFile creation, an entry write, or
the final move — all before the original is replaced), and
`rmtreeSucceeds = false` means the `shutil.rmtree` in the `finally` block
fails (the source passes `ignore_errors=True`). -/

/-- Filesystem state touched by `ZipFileBackend.close`. -/
structure CloseState where
  originalArchive : Option (List (String × List Nat))
  tempZipFile : Bool
  workTree : Option FileTree
deriving DecidableEq

/-- `ZipFileBackend.close(handle, save)`: rewrite and atomically replace
the archive when saving in read-write mode with an existing working
directory, deleting the partial temporary file and re-raising on a build
failure; in all cases finish by best-effort deleting the working
directory. -/
def ZipFileBackend.close (save : Bool) (mode : String) (st : CloseState)
    (buildOk rmtreeSucceeds : Bool) : Except Unit Unit × CloseState :=
  let step :=
    if save && mode == "rw" && st.workTree.isSome then
      let stA := { st with tempZipFile := true }
      if buildOk then
        (Except.ok (),
         { stA with
            originalArchive := some (rewriteArchive (stA.workTree.getD ⟨[], []⟩)),
            tempZipFile := false })
      else
        (Except.error (), { stA with tempZipFile := false })
    else
      (Except.ok (), st)
  let st1 := step.2
  let st2 :=
    if st1.workTree.isSome then
      if rmtreeSucceeds then { st1 with workTree := none } else st1
    else st1
  (step.1, st2)

/-! ### `namespaces/z_os.py`: the transparent walk

`Z_OS._walk_recursive` is embedded with the ambient filesystem as explicit
function parameters (`WalkEnv`) and recursion bounded by fuel (`Nat`); the
recursion on child paths is not structural, and every claim is settled at
a fuel large enough to cover the concrete tree.

The caller of the Python generator holds the yielded `dirs` list and may
mutate it in place before resuming; that caller-side mutation is modelled
by the `prune` parameter, applied to the yielded list exactly where the
caller could edit it.  As in the source, the recursion that follows reads
the locals `sub_dirs` and `zip_entries`, not the (possibly edited) yielded
list. -/

/-- One `Path` object from `real_top.iterdir()`, with the queries the loop
body makes on it: `entry.name`, `entry.is_dir()` (following symlinks, as
`pathlib` does), `entry.is_symlink()`, and `str(entry.resolve())`. -/
structure FsEntry where
  name : String
  isDir : Bool
  isSymlink : Bool
  resolved : String
deriving DecidableEq

/-- The ambient state `_walk_recursive` consults: the handle registry
`self._z_lib._loaded_zips`, `Path(...).resolve()` as a total string map,
`Path.is_dir`, `Path.iterdir` (`none` = `OSError`), and the native
`os.walk` over a working directory, given as its realized tuple list. -/
structure WalkEnv where
  loaded : List (String × ZipHandle)
  resolve : String → String
  isDirPath : String → Bool
  listDir : String → Option (List FsEntry)
  osWalk : String → List (String × List String × List String)

/-- The classification loop of `_walk_recursive` (z_os.py lines 106–114):
an entry that is a directory and not a non-followed symlink goes to
`sub_dirs`; otherwise, an entry whose normalized resolved path is a
registry key goes to `zip_entries`; everything else goes to `sub_files`.
Returns `(sub_dirs, zip_entries, sub_files)` in listing order. -/
def classifyEntries (loadedKeys : List String) (followlinks : Bool) :
    List FsEntry → List String × List String × List String
  | [] => ([], [], [])
  | e :: rest =>
    let (sd, ze, sf) := classifyEntries loadedKeys followlinks rest
    if e.isDir && !(e.isSymlink && !followlinks) then
      (e.name :: sd, ze, sf)
    else if loadedKeys.contains (normalize_path e.resolved) then
      (sd, e.name :: ze, sf)
    else
      (sd, ze, e.name :: sf)

/-- The child virtual path used when recursing into a loaded-ZIP entry
(z_os.py line 130): `normalize_path(str((real_top / zname).resolve()))`,
with `real_top` already the resolved parent. -/
def zipChildVirtual (resolveFn : String → String) (real_top zname : String) :
    String :=
  normalize_path (resolveFn (real_top ++ "/" ++ zname))

/-- `Path(root).relative_to(temp_dir)` as used on the roots produced by
`os.walk(temp_dir)`: `"."` for the top itself, the stripped remainder for
a proper descendant, and `none` (a `ValueError`, turned into `continue`)
otherwise. -/
def relTo (root temp : String) : Option String :=
  if root = temp then some "."
  else if strStartsWith root (temp ++ "/") then
    some (root.drop (temp.length + 1))
  else none

/-- `Z_OS._walk_recursive`.  Archive-backed branch: longest-match hit;
natively walk `temp_dir / internal`, rewriting each root to
`zip_key` or `zip_key ++ "/" ++ rel` (the key recovered, as in the source,
as the first registry entry sharing the handle's `temp_dir`; the `getD`
default is unreachable for a registered handle).  Real-directory branch:
classify the listing, yield `(v, dirs, files)` before the recursion when
`topdown` and after it otherwise, and recurse into the local
subdirectories and then the loaded-ZIP entries. -/
def walkRec (env : WalkEnv) (prune : String → List String → List String)
    (topdown followlinks : Bool) : Nat → String →
    List (String × List String × List String)
  | 0, _ => []
  | fuel + 1, virtual_top =>
    match find_longest_match_handle (fun s => some (env.resolve s))
        virtual_top env.loaded with
    | (some handle, internal_path) =>
      (env.osWalk (joinPath handle.temp_dir internal_path)).filterMap
        (fun rdf =>
          match relTo rdf.1 handle.temp_dir with
          | none => none
          | some rel =>
            let zip_key :=
              ((env.loaded.find?
                  (fun kv => kv.2.temp_dir = handle.temp_dir)).map
                Prod.fst).getD ""
            let virtual_root :=
              if rel = "." then zip_key
              else zip_key ++ "/" ++ normalize_path rel
            some (virtual_root, rdf.2.1, rdf.2.2))
    | (none, _) =>
      let real_top := env.resolve virtual_top
      if !(env.isDirPath real_top) then []
      else
        match env.listDir real_top with
        | none => []
        | some entries =>
          let (sub_dirs, zip_entries, sub_files) :=
            classifyEntries (env.loaded.map Prod.fst) followlinks entries
          let virtual_dirs := sub_dirs ++ zip_entries
          let yielded := (virtual_top, prune virtual_top virtual_dirs, sub_files)
          let subWalks := sub_dirs.flatMap
            (fun d => walkRec env prune topdown followlinks fuel
              (virtual_top ++ "/" ++ d))
          let zipWalks := zip_entries.flatMap
            (fun z => walkRec env prune topdown followlinks fuel
              (zipChildVirtual env.resolve real_top z))
          if topdown then
            yielded :: (subWalks ++ zipWalks)
          else
            (subWalks ++ zipWalks) ++ [yielded]

/-! ### Concrete instances used by witnesses and counterexamples -/

/-- The restriction of the real CP932 codec to pure ASCII input: every
byte below `0x80` decodes to itself (CP932 is ASCII-compatible there), and
any other input is rejected.  Used only to instantiate the abstract
`cp932decode` parameter at concrete inputs. -/
def asciiCp932 : List Nat → Option String :=
  fun bs => if bs.all (fun b => b < 128) then some ⟨bs.map Char.ofNat⟩ else none

/-- A physical-path resolver for a process whose current directory is
`/cwd`: absolute paths resolve to themselves, relative ones are anchored
at `/cwd`. -/
def resolveCwd : String → String :=
  fun p => if strStartsWith p "/" then p else "/cwd/" ++ p

/-- Concrete walk scenario for the pruning claim: the real directory
`/cwd/top` holds an ordinary subdirectory `d` and a loaded archive
`p.zip` whose handle extracts to `/tmp/z1` (containing one file
`f.txt`). -/
def envPrune : WalkEnv where
  loaded := [("/cwd/top/p.zip", ⟨"/cwd/top/p.zip", "/tmp/z1", "rw"⟩)]
  resolve := resolveCwd
  isDirPath := fun s => s = "/cwd/top" || s = "/cwd/top/d"
  listDir := fun s =>
    if s = "/cwd/top" then
      some [⟨"d", true, false, "/cwd/top/d"⟩, ⟨"p.zip", false, false, "/cwd/top/p.zip"⟩]
    else if s = "/cwd/top/d" then some []
    else none
  osWalk := fun s => if s = "/tmp/z1" then [("/tmp/z1", [], ["f.txt"])] else []

/-- Concrete walk scenario for the symlinked-directory claim: the real
directory `/r/top` holds a single entry `s` that is a directory reached
through a symlink; no archive is loaded. -/
def envSym : WalkEnv where
  loaded := []
  resolve := fun p => if strStartsWith p "/" then p else "/r/" ++ p
  isDirPath := fun s => s = "/r/top"
  listDir := fun s =>
    if s = "/r/top" then some [⟨"s", true, true, "/r/top/s"⟩] else none
  osWalk := fun _ => []

/-- Concrete walk scenario for the child-path claim: walking the relative
top `w`, which resolves to `/cwd/w` and holds one ordinary subdirectory
`d`. -/
def envChild : WalkEnv where
  loaded := []
  resolve := resolveCwd
  isDirPath := fun s => s = "/cwd/w"
  listDir := fun s =>
    if s = "/cwd/w" then some [⟨"d", true, false, "/cwd/w/d"⟩] else none
  osWalk := fun _ => []

/-! ### Helper lemmas -/

/-- Unfolding step for the extraction loop, with the entry's fields given
separately. -/
theorem extractLoop_cons (c : List Nat → Option String) (t : FileTree)
    (flag : Nat) (nm : String) (content : List Nat)
    (rest : List (Nat × String × List Nat))
    (n : String) (h : decode_zip_filename c flag nm = .ok n) :
    extractLoop c t ((flag, nm, content) :: rest) =
      extractLoop c (extractEntry t n content) rest := by
  simp [extractLoop, h]

/-- CP437 is a bijection between bytes and its 256 characters: re-encoding
the decoded character of any byte gives that byte back. -/
theorem cp437_roundtrip_byte :
    ∀ b, b < 256 →
      cp437EncodeChar (Char.toNat (Char.ofNat (cp437DecodeByte b))) = some b := by
  decide

/-- Re-encoding a CP437-decoded byte string recovers the original bytes. -/
theorem cp437Encode_cp437Decode (raw : List Nat) (h : ∀ b ∈ raw, b < 256) :
    cp437Encode (cp437Decode raw) = some raw := by
  induction raw with
  | nil => rfl
  | cons b rest ih =>
    have hb := cp437_roundtrip_byte b (h b (by simp))
    have hrest := ih (fun x hx => h x (by simp [hx]))
    simp only [cp437Decode, cp437Encode, List.map_cons] at *
    simp [cp437EncodeList, hb, hrest]

/-- A nonempty list is its leading part followed by its last element. -/
theorem dropLast_append_getLastD :
    ∀ (l : List String) (d : String), l ≠ [] →
      l.dropLast ++ [l.getLastD d] = l
  | [], _, h => absurd rfl h
  | [a], _, _ => rfl
  | a :: b :: r2, _, _ => by
    have h2 := dropLast_append_getLastD (b :: r2) a (by simp)
    simpa using h2

/-- If the string pass finds a registry key at prefix length `i` and every
longer candidate misses, the pass returns that handle with the remainder
from position `i`. -/
theorem matchPass1_found (loaded : List (String × ZipHandle))
    (parts : List String) (i : Nat) (h : ZipHandle) (h1 : 1 ≤ i)
    (hfound : loaded.lookup (String.intercalate "/" (parts.take i)) = some h) :
    ∀ n, i ≤ n →
      (∀ j, i < j → j ≤ n →
        loaded.lookup (String.intercalate "/" (parts.take j)) = none) →
      matchPass1 loaded parts n =
        some (h, String.intercalate "/" (parts.drop i)) := by
  intro n
  induction n with
  | zero => intro hin _; omega
  | succ m ih =>
    intro hin hnone
    by_cases hcase : i = m + 1
    · subst hcase
      simp [matchPass1, hfound]
    · have hmiss : loaded.lookup (String.intercalate "/" (parts.take (m + 1))) = none :=
        hnone (m + 1) (by omega) le_rfl
      simp only [matchPass1, hmiss]
      exact ih (by omega) (fun j hj1 hj2 => hnone j hj1 (by omega))

/-! ### Claims -/

/-- Claim C4: `find_longest_match_handle` scans candidate prefixes from
longest to shortest and the first (longest) string match wins: whenever the
joined leading components of length `i` are a registry key and every longer
candidate is not, the result is that key's handle together with the
remaining components joined as the internal path.  (The witness instantiates
the registry with both `"a.zip"` and `"a.zip/b.zip"` and resolves
`"a.zip/b.zip/x.txt"` to the `"a.zip/b.zip"` handle with remainder
`"x.txt"`.) -/
theorem C4_find_longest_match_longest_wins
    (resolveAbs : String → Option String) (loaded : List (String × ZipHandle))
    (path : String) (i : Nat) (h : ZipHandle) (h1 : 1 ≤ i)
    (hfound : loaded.lookup (String.intercalate "/" ((pathParts path).take i)) = some h)
    (hi : i ≤ (pathParts path).length)
    (hlonger : ∀ j, i < j → j ≤ (pathParts path).length →
      loaded.lookup (String.intercalate "/" ((pathParts path).take j)) = none) :
    find_longest_match_handle resolveAbs path loaded =
      (some h, String.intercalate "/" ((pathParts path).drop i)) := by
  have hp1 := matchPass1_found loaded (pathParts path) i h h1 hfound
    (pathParts path).length hi hlonger
  simp [find_longest_match_handle, hp1]

/-- Witness for C4 at the spec's concrete instance: with `"a.zip"` and
`"a.zip/b.zip"` both registered, `"a.zip/b.zip/x.txt"` selects the
`"a.zip/b.zip"` handle and internal path `"x.txt"`. -/
theorem C4_witness :
    find_longest_match_handle (fun s => some s) "a.zip/b.zip/x.txt"
      [("a.zip", ⟨"a.zip", "/t1", "rw"⟩), ("a.zip/b.zip", ⟨"a.zip/b.zip", "/t2", "rw"⟩)] =
      (some ⟨"a.zip/b.zip", "/t2", "rw"⟩, "x.txt") := by
  have h := C4_find_longest_match_longest_wins (fun s => some s)
    [("a.zip", ⟨"a.zip", "/t1", "rw"⟩), ("a.zip/b.zip", ⟨"a.zip/b.zip", "/t2", "rw"⟩)]
    "a.zip/b.zip/x.txt" 2 ⟨"a.zip/b.zip", "/t2", "rw"⟩ (by omega) (by decide)
    (by decide)
    (by
      intro j hj1 hj2
      have h3 : (pathParts "a.zip/b.zip/x.txt").length = 3 := by decide
      have : j = 3 := by omega
      subst this
      decide)
  exact h.trans (by decide)

/-- Claim C5: for any path with no registry match, resolution raises the
distinct archive-not-loaded error naming the first `.zip`-suffixed prefix
when `split_zip_path` finds one, and otherwise returns the absolute
physical path `Path(path).resolve()` unchanged. -/
theorem C5_resolve_unmatched (resolveAbs : String → Option String)
    (path : String) (loaded : List (String × ZipHandle))
    (hnone : (find_longest_match_handle resolveAbs path loaded).1 = none) :
    resolve_to_real_path resolveAbs path loaded =
      match (split_zip_path path).1 with
      | some z => .error (.zipNotLoaded z)
      | none =>
        match resolveAbs path with
        | some a => .ok a
        | none => .error .osError := by
  unfold resolve_to_real_path
  rcases hfm : find_longest_match_handle resolveAbs path loaded with ⟨o, s⟩
  rw [hfm] at hnone
  simp at hnone
  subst hnone
  rfl

/-- Witness for C5: resolving `"missing.zip/x"` with an empty registry
fails with the archive-not-loaded error naming `"missing.zip"`. -/
theorem C5_witness :
    resolve_to_real_path (fun s => some ("/abs/" ++ s)) "missing.zip/x" [] =
      .error (.zipNotLoaded "missing.zip") := by
  have h := C5_resolve_unmatched (fun s => some ("/abs/" ++ s)) "missing.zip/x" []
    (by decide)
  exact h.trans rfl

/-- Claim C2: an entry whose UTF-8 flag bit is set keeps its name as
already decoded; an entry with the flag unset, whose name the reader
produced by CP437-decoding the raw bytes, is re-encoded to those bytes and
redecoded as CP932, falling back to the CP437-decoded string itself when
CP932 rejects the bytes — in every case without raising, so extraction
always completes. -/
theorem C2_decode_rule (cp932decode : List Nat → Option String)
    (flag_bits : Nat) (raw : List Nat) (name : String)
    (hraw : ∀ b ∈ raw, b < 256) :
    (flag_bits &&& FLAG_UTF8 ≠ 0 →
      decode_zip_filename cp932decode flag_bits name = .ok name) ∧
    (flag_bits &&& FLAG_UTF8 = 0 →
      decode_zip_filename cp932decode flag_bits (cp437Decode raw) =
        .ok (match cp932decode raw with
             | some s => s
             | none => cp437Decode raw)) := by
  constructor
  · intro hf
    simp [decode_zip_filename, hf]
  · intro hf
    simp only [decode_zip_filename, hf, ne_eq, not_true_eq_false, if_false,
      cp437Encode_cp437Decode raw hraw]
    cases cp932decode raw <;> simp

/-- Witness for C2: the flag-unset entry `[0x83]` (CP437 `â`) is rejected
by the ASCII fragment of CP932, so decoding falls back to the
CP437-decoded string without raising. -/
theorem C2_witness :
    decode_zip_filename asciiCp932 0 (cp437Decode [131]) =
      .ok (cp437Decode [131]) := by
  have h := (C2_decode_rule asciiCp932 0 [131] "x" (by decide)).2 rfl
  simpa using h

/-- Claim C6: when building the temporary archive fails during a
`close` with `save` set, read-write mode and an existing working
directory, the partial temporary file is deleted, the failure propagates,
and the original archive at the target path is left unchanged. -/
theorem C6_close_build_failure (st : CloseState) (wt : FileTree) (rm : Bool)
    (h : st.workTree = some wt) :
    (ZipFileBackend.close true "rw" st false rm).1 = .error () ∧
    (ZipFileBackend.close true "rw" st false rm).2.originalArchive = st.originalArchive ∧
    (ZipFileBackend.close true "rw" st false rm).2.tempZipFile = false := by
  cases st with
  | mk arch tz w =>
    have h' : w = some wt := h
    subst h'
    cases rm <;> simp [ZipFileBackend.close]

/-- Witness for C6 at a concrete state: the original archive `[("o", [1])]`
survives a failed rewrite and the temporary file is gone. -/
theorem C6_witness :
    (ZipFileBackend.close true "rw" ⟨some [("o", [1])], false, some ⟨[], []⟩⟩ false true).1 =
      .error () ∧
    (ZipFileBackend.close true "rw" ⟨some [("o", [1])], false, some ⟨[], []⟩⟩ false true).2.originalArchive =
      some [("o", [1])] ∧
    (ZipFileBackend.close true "rw" ⟨some [("o", [1])], false, some ⟨[], []⟩⟩ false true).2.tempZipFile =
      false :=
  C6_close_build_failure ⟨some [("o", [1])], false, some ⟨[], []⟩⟩ ⟨[], []⟩ true rfl

/-- Claim C9: for every `close` call — saving or not, read-write or not,
build succeeding or failing — the working directory is recursively deleted
(gone whenever deletion is possible at all), and a deletion failure never
changes the call's outcome, because `shutil.rmtree` runs with
`ignore_errors=True`. -/
theorem C9_close_always_deletes_workdir (save : Bool) (mode : String)
    (st : CloseState) (buildOk : Bool) :
    (ZipFileBackend.close save mode st buildOk true).2.workTree = none ∧
    (ZipFileBackend.close save mode st buildOk false).1 =
      (ZipFileBackend.close save mode st buildOk true).1 := by
  cases st with
  | mk arch tz w =>
    cases w <;> cases buildOk <;>
      by_cases hc : (save && (mode == "rw")) = true <;>
        simp [ZipFileBackend.close, hc]

/-- Claim C10: `close` with `save` set writes only regular files beneath
the working directory into the rewritten archive; a directory with no file
anywhere beneath it contributes no entry, so empty directories are
silently dropped. -/
theorem C10_rewrite_drops_empty_dirs (t : FileTree) (d : List String)
    (_hd : d ∈ t.dirs)
    (hnof : ∀ f ∈ t.files, ¬ d <+: f.1) :
    ∀ e ∈ rewriteEntries t, ¬ d <+: e.1 := by
  intro e he
  simp only [rewriteEntries, List.mem_flatMap, List.mem_map] at he
  obtain ⟨rf, hrf, nc, hnc, hee⟩ := he
  simp only [walkTuples, List.mem_map] at hrf
  obtain ⟨r, hr, hrfeq⟩ := hrf
  subst hrfeq
  simp only [filesDirectlyIn, List.mem_filterMap] at hnc
  obtain ⟨f, hf, hfnc⟩ := hnc
  split at hfnc
  case isTrue hcond =>
    simp only [Bool.and_eq_true, Bool.not_eq_true', List.isEmpty_eq_false,
      beq_iff_eq] at hcond
    have hnc1 : nc.1 = f.1.getLastD "" := by
      rw [← Option.some.inj hfnc]
    have he1 : e.1 = f.1 := by
      rw [← hee]
      show r ++ [nc.1] = f.1
      rw [hnc1, ← hcond.2]
      exact dropLast_append_getLastD f.1 "" hcond.1
    rw [he1]
    exact hnof f hf
  case isFalse => exact absurd hfnc (by simp)

/-- Witness for C10: in a working tree with directories `B` and `E` and
the single file `B/C`, the rewrite contains exactly the `B/C` entry and
no entry under the empty directory `E`. -/
theorem C10_witness :
    rewriteEntries ⟨[["B"], ["E"]], [(["B", "C"], [1])]⟩ = [(["B", "C"], [1])] ∧
    ¬ (["E"] : List String) <+: ["B", "C"] :=
  ⟨by decide,
   C10_rewrite_drops_empty_dirs ⟨[["B"], ["E"]], [(["B", "C"], [1])]⟩ ["E"]
     (by decide) (by decide) (["B", "C"], [1]) (by decide)⟩

/-- Claim C3: extracting an archive with entries `A` (file), `B/`
(directory) and `B/C` (file), closing unmodified with `save` in read-write
mode, and re-extracting the archive the close wrote yields the same
working tree — the same entry set and byte-identical payloads.  The close
writes entries `A` and `B/C`; reading them back, `zipfile` leaves the
UTF-8 flag clear on these ASCII names, and the two hypotheses state the
(true) facts that CP932 decodes the ASCII bytes of `"A"` and `"B/C"` to
themselves. -/
theorem C3_roundtrip (cp932decode : List Nat → Option String) (ca cc : List Nat)
    (arch0 : Option (List (String × List Nat))) (tz : Bool)
    (hA : cp932decode [65] = some "A")
    (hBC : cp932decode [66, 47, 67] = some "B/C") :
    ∃ t0 : FileTree,
      extract_with_encoding cp932decode
        [(0x800, "A", ca), (0x800, "B/", []), (0x800, "B/C", cc)] = .ok t0 ∧
      (ZipFileBackend.close true "rw" ⟨arch0, tz, some t0⟩ true true).2.originalArchive =
        some [("A", ca), ("B/C", cc)] ∧
      extract_with_encoding cp932decode [(0, "A", ca), (0, "B/C", cc)] = .ok t0 := by
  refine ⟨⟨[["B"]], [(["A"], ca), (["B", "C"], cc)]⟩, ?_, ?_, ?_⟩
  · show extractLoop cp932decode ⟨[], []⟩ _ = _
    rw [extractLoop_cons cp932decode ⟨[], []⟩ 0x800 "A" ca _ "A" rfl]
    have h1 : extractEntry ⟨[], []⟩ "A" ca = ⟨[], [(["A"], ca)]⟩ := rfl
    rw [h1, extractLoop_cons cp932decode _ 0x800 "B/" [] _ "B/" rfl]
    have h2 : extractEntry ⟨[], [(["A"], ca)]⟩ "B/" [] = ⟨[["B"]], [(["A"], ca)]⟩ := rfl
    rw [h2, extractLoop_cons cp932decode _ 0x800 "B/C" cc _ "B/C" rfl]
    have h3 : extractEntry ⟨[["B"]], [(["A"], ca)]⟩ "B/C" cc =
      ⟨[["B"]], [(["A"], ca), (["B", "C"], cc)]⟩ := rfl
    rw [h3]
    rfl
  · rfl
  · have hdA : decode_zip_filename cp932decode 0 "A" = .ok "A" := by
      have he : cp437Encode "A" = some [65] := rfl
      simp [decode_zip_filename, FLAG_UTF8, he, hA]
    have hdBC : decode_zip_filename cp932decode 0 "B/C" = .ok "B/C" := by
      have he : cp437Encode "B/C" = some [66, 47, 67] := rfl
      simp [decode_zip_filename, FLAG_UTF8, he, hBC]
    show extractLoop cp932decode ⟨[], []⟩ _ = _
    rw [extractLoop_cons cp932decode ⟨[], []⟩ 0 "A" ca _ "A" hdA]
    have h1 : extractEntry ⟨[], []⟩ "A" ca = ⟨[], [(["A"], ca)]⟩ := rfl
    rw [h1, extractLoop_cons cp932decode _ 0 "B/C" cc _ "B/C" hdBC]
    have h3 : extractEntry ⟨[], [(["A"], ca)]⟩ "B/C" cc =
      ⟨[["B"]], [(["A"], ca), (["B", "C"], cc)]⟩ := rfl
    rw [h3]
    rfl

/-- Witness for C3 at the ASCII fragment of CP932 and concrete payloads. -/
theorem C3_witness :
    ∃ t0 : FileTree,
      extract_with_encoding asciiCp932
        [(0x800, "A", [202]), (0x800, "B/", []), (0x800, "B/C", [203])] = .ok t0 ∧
      (ZipFileBackend.close true "rw" ⟨none, false, some t0⟩ true true).2.originalArchive =
        some [("A", [202]), ("B/C", [203])] ∧
      extract_with_encoding asciiCp932 [(0, "A", [202]), (0, "B/C", [203])] = .ok t0 :=
  C3_roundtrip asciiCp932 [202] [203] none false (by decide) (by decide)

/-- Everything the classification loop puts into any of its three buckets
is the name of a listed entry. -/
theorem classifyEntries_mem_names (keys : List String) (fl : Bool)
    (entries : List FsEntry) (x : String)
    (hx : x ∈ (classifyEntries keys fl entries).1 ∨
          x ∈ (classifyEntries keys fl entries).2.1 ∨
          x ∈ (classifyEntries keys fl entries).2.2) :
    x ∈ entries.map FsEntry.name := by
  induction entries with
  | nil => simp [classifyEntries] at hx
  | cons a rest ih =>
    rcases hc : classifyEntries keys fl rest with ⟨sd, ze, sf⟩
    rw [hc] at ih
    simp only [classifyEntries, hc] at hx
    simp only [List.map_cons, List.mem_cons]
    split at hx
    · rcases hx with hx | hx
      · rcases List.mem_cons.mp hx with hx | hx
        · exact Or.inl hx
        · exact Or.inr (ih (Or.inl hx))
      · exact Or.inr (ih (Or.inr hx))
    · split at hx
      · rcases hx with hx | hx | hx
        · exact Or.inr (ih (Or.inl hx))
        · rcases List.mem_cons.mp hx with hx | hx
          · exact Or.inl hx
          · exact Or.inr (ih (Or.inr (Or.inl hx)))
        · exact Or.inr (ih (Or.inr (Or.inr hx)))
      · rcases hx with hx | hx | hx
        · exact Or.inr (ih (Or.inl hx))
        · exact Or.inr (ih (Or.inr (Or.inl hx)))
        · rcases List.mem_cons.mp hx with hx | hx
          · exact Or.inl hx
          · exact Or.inr (ih (Or.inr (Or.inr hx)))

/-- Claim C1 (the code ignores pruning): walking `/cwd/top` — which holds
the ordinary subdirectory `d` and the loaded archive mount `p.zip` — while
the caller empties the yielded subdirectory list in place before every
resumption, the walk still descends into both `d` and the mount: the
recursion iterates over the `sub_dirs` and `zip_entries` locals captured
before the yield and never re-reads the edited list. -/
theorem C1_prune_has_no_effect :
    (walkRec envPrune (fun _ _ => []) true false 3 "top").map (fun t => t.1) =
      ["top", "top/d", "/cwd/top/p.zip"] := by
  decide

/-- Claim C7 (counterexample): recursing into a mount point does not use
`v ++ "/" ++ name`.  From the relative top `w` with current directory
`/cwd`, the child the walk recurses into for entry `p.zip` is the
resolved absolute `/cwd/w/p.zip`, not `w/p.zip`. -/
theorem C7_counterexample :
    zipChildVirtual resolveCwd (resolveCwd "w") "p.zip" = "/cwd/w/p.zip" ∧
    "/cwd/w/p.zip" ≠ "w" ++ "/" ++ "p.zip" := by
  decide

/-- Claim C7 (amended): in a top-down walk of a real directory, the tuple
is yielded first, then the walk recurses into each ordinary subdirectory
with child `v ++ "/" ++ name`, and then into each mount point with child
`zipChildVirtual` — the slash-normalized physical resolution of the entry
under the resolved parent, which coincides with `v ++ "/" ++ name`
whenever resolution leaves that joined path unchanged. -/
theorem C7_topdown_yield_then_recurse (env : WalkEnv)
    (prune : String → List String → List String) (followlinks : Bool)
    (fuel : Nat) (v : String) (entries : List FsEntry)
    (sub_dirs zip_entries sub_files : List String)
    (hmatch : find_longest_match_handle (fun s => some (env.resolve s)) v
      env.loaded = (none, v))
    (hdir : env.isDirPath (env.resolve v) = true)
    (hlist : env.listDir (env.resolve v) = some entries)
    (hclass : classifyEntries (env.loaded.map Prod.fst) followlinks entries =
      (sub_dirs, zip_entries, sub_files)) :
    walkRec env prune true followlinks (fuel + 1) v =
      (v, prune v (sub_dirs ++ zip_entries), sub_files) ::
        (sub_dirs.flatMap
          (fun d => walkRec env prune true followlinks fuel (v ++ "/" ++ d)) ++
         zip_entries.flatMap
          (fun z => walkRec env prune true followlinks fuel
            (zipChildVirtual env.resolve (env.resolve v) z))) := by
  simp [walkRec, hmatch, hdir, hlist, hclass]

/-- Witness for C7 at a concrete directory with one subdirectory. -/
theorem C7_witness :
    walkRec envChild (fun _ l => l) true false 1 "w" = [("w", ["d"], [])] := by
  have h := C7_topdown_yield_then_recurse envChild (fun _ l => l) false 0 "w"
    [⟨"d", true, false, "/cwd/w/d"⟩] ["d"] [] [] (by decide) (by decide)
    (by decide) (by decide)
  exact h.trans (by decide)

/-- Claim C8 (counterexample): walking `/r/top`, whose only entry `s` is a
directory reached through a symlink, with `followlinks` false, yields `s`
in the file list and an empty subdirectory list — not, as claimed, in the
subdirectory list. -/
theorem C8_counterexample :
    walkRec envSym (fun _ l => l) true false 2 "top" = [("top", [], ["s"])] := by
  decide

/-- Claim C8 (amended): with `followlinks` false, a directory entry that
is a symlink is excluded from the subdirectory list and from the mount
list (so the walk never descends into it, recursion covering only those
two buckets); when its resolved path is not a registry key it is listed
among the files instead. -/
theorem C8_symlink_dir_not_in_subdirs (keys : List String)
    (entries : List FsEntry) (e : FsEntry) (he : e ∈ entries)
    (hdir : e.isDir = true) (hsym : e.isSymlink = true)
    (hkey : keys.contains (normalize_path e.resolved) = false)
    (hnodup : (entries.map FsEntry.name).Nodup) :
    e.name ∈ (classifyEntries keys false entries).2.2 ∧
    e.name ∉ (classifyEntries keys false entries).1 ∧
    e.name ∉ (classifyEntries keys false entries).2.1 := by
  induction entries with
  | nil => cases he
  | cons a rest ih =>
    rcases hc : classifyEntries keys false rest with ⟨sd, ze, sf⟩
    have hnames : ∀ y, (y ∈ sd ∨ y ∈ ze ∨ y ∈ sf) → y ∈ rest.map FsEntry.name := by
      intro y hy
      apply classifyEntries_mem_names keys false rest y
      rw [hc]
      exact hy
    simp only [List.map_cons, List.nodup_cons] at hnodup
    obtain ⟨hhead, hrest⟩ := hnodup
    rcases List.mem_cons.mp he with he' | he'
    · subst he'
      simp only [classifyEntries, hc, hdir, hsym, Bool.not_true, Bool.and_false,
        Bool.true_and, Bool.and_true, Bool.not_false, hkey, if_false,
        Bool.false_eq_true, if_neg]
      constructor
      · simp
      constructor
      · intro hmem
        exact hhead (hnames e.name (Or.inl hmem))
      · intro hmem
        exact hhead (hnames e.name (Or.inr (Or.inl hmem)))
    · have hen : e.name ∈ rest.map FsEntry.name :=
        List.mem_map_of_mem FsEntry.name he'
      have hne : e.name ≠ a.name := fun hx => hhead (hx ▸ hen)
      have ihr := ih he' hrest
      rw [hc] at ihr
      obtain ⟨i1, i2, i3⟩ := ihr
      simp only [classifyEntries, hc]
      split
      · exact ⟨i1, fun hmem => (List.mem_cons.mp hmem).elim hne i2, i3⟩
      · split
        · exact ⟨i1, i2, fun hmem => (List.mem_cons.mp hmem).elim hne i3⟩
        · exact ⟨List.mem_cons_of_mem _ i1, i2, i3⟩

/-- Witness for C8 at the single symlinked-directory entry. -/
theorem C8_witness :
    "s" ∈ (classifyEntries [] false [⟨"s", true, true, "/r/top/s"⟩]).2.2 ∧
    "s" ∉ (classifyEntries [] false [⟨"s", true, true, "/r/top/s"⟩]).1 ∧
    "s" ∉ (classifyEntries [] false [⟨"s", true, true, "/r/top/s"⟩]).2.1 :=
  C8_symlink_dir_not_in_subdirs [] [⟨"s", true, true, "/r/top/s"⟩]
    ⟨"s", true, true, "/r/top/s"⟩ (by simp) rfl rfl (by decide) (by simp)

end ZLib
